import Mathlib

/-!
Verification of the networked message-exchange layer and the game-state
lifecycle manager of the `pluto` repository.

The development shallowly embeds, in Lean, the Python code of
`src/lib/networking.py`, `src/lib/networking_transport.py` and
`src/lib/gamestates.py`, and proves (or refutes) the specification's
claims about it.

Modelling conventions:
- Python byte strings are `List Nat` (one `Nat` per byte).
- Python exceptions are an explicit `PyError` value returned through
  `Except` (written `PyResult`).
- Python dicts are association lists in insertion order, matching the
  insertion-order semantics of `dict`.
- Message field values are modelled over ints and plain ASCII strings
  (`JVal`); fixed-size float vector fields (converted to plain tuples by
  `_serialize_net_msg` before serialization) are outside the modelled
  field domain, as is any message type providing a custom `from_dict`
  constructor.
-/

/-- Python exception values, by exception class. -/
inductive PyError
  | runtimeError (msg : String)
  | typeError (msg : String)
  | valueError (msg : String)
  | keyError
  | indexError
  | attributeError (msg : String)
deriving DecidableEq, Repr

/-- Result of a Python call: a value, or a raised exception. -/
abbrev PyResult (α : Type) := Except PyError α

/-- A JSON-serializable Python value appearing as a message field:
an int or a string. -/
inductive JVal
  | jint (n : Int)
  | jstr (s : String)
deriving DecidableEq, Repr

/-- A Python dict with string keys, in insertion order. -/
abbrev JDict := List (String × JVal)

/-- Python `d[k] = v`: replace in place if the key is present, else append. -/
def dictSet (d : JDict) (k : String) (v : JVal) : JDict :=
  if d.any (fun e => e.1 = k) then d.map (fun e => if e.1 = k then (k, v) else e)
  else d ++ [(k, v)]

/-- Python `d[k]`: the value at the key, or a `KeyError`. -/
def dictGet (d : JDict) (k : String) : PyResult JVal :=
  match d.find? (fun e => e.1 = k) with
  | some e => .ok e.2
  | none => .error .keyError

/-- Python `del d[k]` for a dict with unique keys: drop the entry. -/
def dictDel (d : JDict) (k : String) : JDict :=
  d.filter (fun e => !(e.1 = k))

/-- Whether a byte is an ASCII decimal digit. -/
def isDigitByte (b : Nat) : Bool := 48 ≤ b && b ≤ 57

/-- ASCII codes of the decimal digits of a positive number, little-endian;
fuel-based so that it reduces in the kernel. -/
def natBytesAux : Nat → Nat → List Nat
  | 0, _ => []
  | _ + 1, 0 => []
  | fuel + 1, n + 1 => ((n + 1) % 10 + 48) :: natBytesAux fuel ((n + 1) / 10)

/-- ASCII decimal representation of a natural number. -/
def natBytes (n : Nat) : List Nat :=
  if n = 0 then [48] else (natBytesAux n n).reverse

/-- ASCII decimal representation of an integer (minus sign for negatives). -/
def intBytes : Int → List Nat
  | .ofNat n => natBytes n
  | .negSucc m => 45 :: natBytes (m + 1)

/-- The byte codes of a string (the modelled domain is plain ASCII). -/
def strBytes (s : String) : List Nat := s.data.map Char.toNat

/-- Rebuild a string from byte codes. -/
def bytesToStr (bs : List Nat) : String := String.mk (bs.map Char.ofNat)

/-- JSON encoding of one value. -/
def encodeVal : JVal → List Nat
  | .jint n => intBytes n
  | .jstr s => 34 :: (strBytes s ++ [34])

/-- JSON encoding of one object entry: a quoted key, a colon, a space,
then the value (the default separators of Python `json.dumps`). -/
def encodeEntry (e : String × JVal) : List Nat :=
  34 :: (strBytes e.1 ++ 34 :: 58 :: 32 :: encodeVal e.2)

/-- JSON encoding of the entries of an object, comma-space separated. -/
def encodeEntries : JDict → List Nat
  | [] => []
  | [e] => encodeEntry e
  | e :: f :: rest => encodeEntry e ++ 44 :: 32 :: encodeEntries (f :: rest)

/-- JSON encoding of an object, as produced by Python `json.dumps`. -/
def jsonEncode (d : JDict) : List Nat := 123 :: (encodeEntries d ++ [125])

/-- Scan the bytes of a JSON string until the closing quote. -/
def scanStr : List Nat → Option (List Nat × List Nat)
  | [] => none
  | c :: rest =>
    if c = 34 then some ([], rest)
    else (scanStr rest).map (fun p => (c :: p.1, p.2))

/-- Value of a big-endian list of ASCII digit codes. -/
def digitsToNat (ds : List Nat) : Nat :=
  ds.foldl (fun a d => a * 10 + (d - 48)) 0

/-- Parse a JSON integer token at the head of the input. -/
def parseIntTok (bs : List Nat) : Option (Int × List Nat) :=
  if bs.head? = some 45 then
    let ds := bs.tail.takeWhile isDigitByte
    if ds.isEmpty then none
    else some (-(digitsToNat ds : Int), bs.tail.dropWhile isDigitByte)
  else
    let ds := bs.takeWhile isDigitByte
    if ds.isEmpty then none
    else some ((digitsToNat ds : Int), bs.dropWhile isDigitByte)

/-- Parse a JSON string token at the head of the input. -/
def parseStrTok (bs : List Nat) : Option (String × List Nat) :=
  match bs with
  | c :: rest =>
    if c = 34 then (scanStr rest).map (fun p => (bytesToStr p.1, p.2)) else none
  | [] => none

/-- Parse a JSON value (string or integer) at the head of the input. -/
def parseVal (bs : List Nat) : Option (JVal × List Nat) :=
  match bs with
  | c :: _ =>
    if c = 34 then (parseStrTok bs).map (fun p => (JVal.jstr p.1, p.2))
    else (parseIntTok bs).map (fun p => (JVal.jint p.1, p.2))
  | [] => none

/-- Parse one JSON object entry at the head of the input. -/
def parseEntry (bs : List Nat) : Option ((String × JVal) × List Nat) :=
  match bs with
  | b :: r =>
    if b = 34 then
      match scanStr r with
      | some (ks, r1) =>
        match r1 with
        | a :: c :: r2 =>
          if a = 58 && c = 32 then
            (parseVal r2).map (fun p => ((bytesToStr ks, p.1), p.2))
          else none
        | _ => none
      | none => none
    else none
  | [] => none

/-- Parse a nonempty comma-space separated entry sequence up to the
closing brace, with fuel bounding the number of entries. -/
def parseEntries : Nat → List Nat → Option (JDict × List Nat)
  | 0, _ => none
  | fuel + 1, bs =>
    (parseEntry bs).bind (fun ev =>
      match ev.2 with
      | a :: rest =>
        if a = 125 then some ([ev.1], rest)
        else if a = 44 then
          match rest with
          | b :: rest2 =>
            if b = 32 then
              (parseEntries fuel rest2).map (fun p => (ev.1 :: p.1, p.2))
            else none
          | [] => none
        else none
      | [] => none)

/-- Parse a complete JSON object, requiring the input to be fully
consumed, as Python `json.loads` does. -/
def jsonParse (bs : List Nat) : Option JDict :=
  match bs with
  | b :: rest =>
    if b = 123 then
      if rest = [125] then some []
      else
        match parseEntries rest.length rest with
        | some (d, List.nil) => some d
        | _ => none
    else none
  | [] => none

/-- A Python value handed to the deserializer: a byte string, or the
`(connection_id, bytes)` tuple produced by the transport's message queue. -/
inductive PyVal
  | bytes (bs : List Nat)
  | pair (connId : Nat) (bs : List Nat)
deriving DecidableEq, Repr

/-- Modelled from the spec: `networking.py` imports `JsonNetworkSerializer`
from `networking_serializers.py`, but the serializer sources in the
repository snapshot define only a msgspec-based serializer, so the JSON
serializer itself is missing. Per the spec, `serialize` is a deterministic
message-to-bytes encoding; it is modelled as Python `json.dumps` of the
message dict (insertion-order keys, default separators), restricted to
int and plain-ASCII string values. -/
def JsonNetworkSerializer.serialize (d : JDict) : List Nat := jsonEncode d

/-- Modelled from the spec: the matching `deserialize` of the missing
`JsonNetworkSerializer`, i.e. Python `json.loads`. A non-byte-string
argument (such as the `(connection_id, bytes)` tuple the transport queue
yields) raises a `TypeError`, exactly as `json.loads` does; undecodable
bytes raise a decode error (a `ValueError` subclass). -/
def JsonNetworkSerializer.deserialize (v : PyVal) : PyResult JDict :=
  match v with
  | .bytes bs =>
    match jsonParse bs with
    | some d => .ok d
    | none => .error (.valueError "Expecting value")
  | .pair _ _ =>
    .error (.typeError "the JSON object must be str, bytes or bytearray, not tuple")

/-- Bytewise well-formedness of a character in the modelled string
domain: printable ASCII, neither a quote nor a backslash. -/
def wfCharB (c : Char) : Bool :=
  32 ≤ c.toNat && c.toNat < 127 && c.toNat ≠ 34 && c.toNat ≠ 92

/-- Well-formedness of a string in the modelled domain. -/
def wfStrB (s : String) : Bool := s.data.all wfCharB

/-- Well-formedness of a field value in the modelled domain. -/
def wfValB : JVal → Bool
  | .jint _ => true
  | .jstr s => wfStrB s

/-- Well-formedness of a dict in the modelled domain. -/
def wfDictB (d : JDict) : Bool :=
  d.all (fun e => wfStrB e.1 && wfValB e.2)

deriving instance DecidableEq for Except

/-- A registered message class, identified (like a Python class object)
by an identity, with its dataclass flag and declared field names in
declaration order. Types providing a custom `from_dict` constructor are
outside the modelled domain. -/
structure MsgType where
  tyid : Nat
  isDataclass : Bool
  fieldNames : List String
deriving DecidableEq, Repr

/-- A message instance: its class and its field dict, in declaration
order (the order `dataclasses.asdict` produces). -/
structure Msg where
  type : MsgType
  fields : JDict
deriving DecidableEq, Repr

/-- Python `list.index` scan with a running position. -/
def pyListIndexAux (x : MsgType) : List MsgType → Nat → Option Nat
  | [], _ => none
  | y :: t, k => if y = x then some k else pyListIndexAux x t (k + 1)

/-- Python `list.index`: the first index holding `x`, if any
(`list.index` raises `ValueError` otherwise, which
`register_message_type` catches and `_serialize_net_msg` converts). -/
def pyListIndex (xs : List MsgType) (x : MsgType) : Option Nat :=
  pyListIndexAux x xs 0

/-- Python list subscription `xs[i]`, with negative indices counting
from the end and `IndexError` out of range. -/
def pyListGet (xs : List MsgType) (i : Int) : PyResult MsgType :=
  let j : Int := if i < 0 then i + xs.length else i
  if j < 0 then .error .indexError
  else
    match xs.get? j.toNat with
    | some x => .ok x
    | none => .error .indexError

/-- Embeds `NetworkManager.register_message_type`: a duplicate raises a
`RuntimeError` before any mutation, a non-dataclass raises a
`RuntimeError`, otherwise the type is appended to the registry. -/
def register_message_type (types : List MsgType) (mt : MsgType) :
    PyResult (List MsgType) :=
  match pyListIndex types mt with
  | some _ => .error (.runtimeError "Cannot register NetworkMessage type: already registered")
  | none =>
    if !mt.isDataclass then
      .error (.runtimeError "Cannot serialize message of type: must be a dataclass")
    else .ok (types ++ [mt])

/-- Registers a list of types one after the other, stopping at the first
raised exception. -/
def registerAll (types : List MsgType) (new : List MsgType) : PyResult (List MsgType) :=
  new.foldlM register_message_type types

/-- Embeds `NetworkManager._serialize_net_msg`: look up the type's
registry index (raising `RuntimeError` for an unregistered type), store
it into the message dict under the key `__typeid__`, and serialize the
whole dict. Vector fields, which the source converts to plain tuples
here, are outside the modelled field domain. -/
def serialize_net_msg (types : List MsgType) (message : Msg) : PyResult (List Nat) :=
  match pyListIndex types message.type with
  | none => .error (.runtimeError "Attempted to send message of unregistered type")
  | some type_id =>
    let msgdict := dictSet message.fields "__typeid__" (.jint type_id)
    .ok (JsonNetworkSerializer.serialize msgdict)

/-- The `for key in msgdict: vtype = msgtype.__annotations__[key]` loop
of `_deserialize_net_msg`: it raises `KeyError` when a dict key is not a
declared field; over the modelled field domain (no vector annotations)
it converts nothing. -/
def annotationsCheck (mt : MsgType) (d : JDict) : PyResult Unit :=
  if d.all (fun e => mt.fieldNames.contains e.1) then .ok ()
  else .error .keyError

/-- Python `msgtype(**msgdict)` on a `kw_only` dataclass with no
defaults: every declared field must be supplied and no extra keyword is
accepted (`TypeError` otherwise); the constructed object carries its
fields in declaration order. -/
def pyDataclassCall (mt : MsgType) (d : JDict) : PyResult Msg :=
  if mt.fieldNames.all (fun f => d.any (fun e => e.1 = f)) &&
      d.all (fun e => mt.fieldNames.contains e.1) then
    .ok ⟨mt, mt.fieldNames.filterMap
      (fun f => (d.find? (fun e => e.1 = f)).map (fun e => (f, e.2)))⟩
  else .error (.typeError "unexpected or missing constructor argument")

/-- Embeds `NetworkManager._deserialize_net_msg`: deserialize the whole
input, read and delete the `__typeid__` entry, index the registry with
it, run the annotation loop, and construct the message. -/
def deserialize_net_msg (types : List MsgType) (message : PyVal) : PyResult Msg :=
  match JsonNetworkSerializer.deserialize message with
  | .error e => .error e
  | .ok msgdict =>
    match dictGet msgdict "__typeid__" with
    | .error e => .error e
    | .ok tid =>
      let msgdict2 := dictDel msgdict "__typeid__"
      match tid with
      | .jstr _ => .error (.typeError "list indices must be integers")
      | .jint n =>
        match pyListGet types n with
        | .error e => .error e
        | .ok msgtype =>
          match annotationsCheck msgtype msgdict2 with
          | .error e => .error e
          | .ok _ => pyDataclassCall msgtype msgdict2

/-- The `NetRole` enumeration of `networking.py`. -/
inductive NetRole
  | CLIENT
  | SERVER
  | DUAL
deriving DecidableEq, Repr

/-- Which of a manager's two transport slots an operation resolved to. -/
inductive TransportSide
  | client
  | server
deriving DecidableEq, Repr

/-- Embeds `PandaNetworkTransport`: the started flag, the connection
table (`dict` in insertion order, id to socket handle), the next id
counter, plus the listening flag. `inbox` models the reader's pending
datagrams as (socket handle, payload) pairs, `outbox` records every
write handed to the connection writer in order, and `issued` is ghost
instrumentation recording every connection id in order of assignment. -/
structure PandaNetworkTransport where
  is_started : Bool
  listening : Bool
  connections : List (Nat × Nat)
  next_id : Nat
  inbox : List (Nat × List Nat)
  outbox : List (Nat × List Nat)
  issued : List Nat
deriving DecidableEq, Repr

/-- A freshly constructed transport. -/
def PandaNetworkTransport.init : PandaNetworkTransport :=
  ⟨false, false, [], 0, [], [], []⟩

/-- Embeds `PandaNetworkTransport.start_server`: fails when already
started, or when the rendezvous socket cannot be opened. -/
def PandaNetworkTransport.start_server (t : PandaNetworkTransport) (openOk : Bool) :
    PyResult PandaNetworkTransport :=
  if t.is_started then .error (.runtimeError "Cannot start as server: already started")
  else if !openOk then .error (.runtimeError "Failed to open listen connection")
  else .ok { t with listening := true, is_started := true }

/-- Embeds `PandaNetworkTransport.start_client`: fails when already
started or when the connection cannot be opened; on success the new
connection is stored under the current `next_id` (0 on a fresh
transport), which is then incremented. -/
def PandaNetworkTransport.start_client (t : PandaNetworkTransport) (connOk : Bool)
    (handle : Nat) : PyResult PandaNetworkTransport :=
  if t.is_started then .error (.runtimeError "Cannot start as client: already started")
  else if !connOk then .error (.runtimeError "Failed to connect to server")
  else .ok { t with
    connections := t.connections ++ [(t.next_id, handle)],
    next_id := t.next_id + 1,
    issued := t.issued ++ [t.next_id],
    is_started := true }

/-- One iteration of the `get_new_connections` accept loop: store the
accepted socket under the current `next_id` and increment it. -/
def acceptConnection (t : PandaNetworkTransport) (handle : Nat) : PandaNetworkTransport :=
  { t with
    connections := t.connections ++ [(t.next_id, handle)],
    next_id := t.next_id + 1,
    issued := t.issued ++ [t.next_id] }

/-- The accept loop of `get_new_connections`: record each assigned id
and thread the table updates. -/
def acceptLoop (t : PandaNetworkTransport) : List Nat → List Nat × PandaNetworkTransport
  | [] => ([], t)
  | h :: rest =>
    let p := acceptLoop (acceptConnection t h) rest
    (t.next_id :: p.1, p.2)

/-- Embeds `PandaNetworkTransport.get_new_connections`: drain the
listener's pending sockets, assigning ids in order. -/
def PandaNetworkTransport.get_new_connections (t : PandaNetworkTransport)
    (handles : List Nat) : List Nat × PandaNetworkTransport :=
  acceptLoop t handles

/-- The reverse lookup
`list(self._connections.keys())[list(self._connections.values()).index(conn)]`:
the id of the first table entry holding the socket, or the uncaught
`ValueError` that `list.index` raises when the socket is not tracked. -/
def connIdOfHandle (conns : List (Nat × Nat)) (handle : Nat) : PyResult Nat :=
  match conns.find? (fun e => e.2 = handle) with
  | some e => .ok e.1
  | none => .error (.valueError "is not in list")

/-- The `get_disconnects` reset loop: look up each reset socket's id,
record it and delete the table entry; an untracked socket raises. -/
def disconnectLoop (conns : List (Nat × Nat)) :
    List Nat → PyResult (List Nat × List (Nat × Nat))
  | [] => .ok ([], conns)
  | h :: rest =>
    match connIdOfHandle conns h with
    | .error e => .error e
    | .ok cid =>
      match disconnectLoop (conns.filter (fun e => !(e.1 = cid))) rest with
      | .error e => .error e
      | .ok p => .ok (cid :: p.1, p.2)

/-- Embeds `PandaNetworkTransport.get_disconnects` over the reset
sockets the connection manager reports. -/
def PandaNetworkTransport.get_disconnects (t : PandaNetworkTransport)
    (resets : List Nat) : PyResult (List Nat × PandaNetworkTransport) :=
  match disconnectLoop t.connections resets with
  | .error e => .error e
  | .ok p => .ok (p.1, { t with connections := p.2 })

/-- The `get_messages` datagram loop: map each pending datagram's socket
back to its connection id by reverse lookup. -/
def collectMessages (conns : List (Nat × Nat)) :
    List (Nat × List Nat) → PyResult (List (Nat × List Nat))
  | [] => .ok []
  | r :: rest =>
    match connIdOfHandle conns r.1 with
    | .error e => .error e
    | .ok cid =>
      match collectMessages conns rest with
      | .error e => .error e
      | .ok ms => .ok ((cid, r.2) :: ms)

/-- Embeds `PandaNetworkTransport.get_messages`: drain the reader queue
and return (connection id, payload) pairs in arrival order. -/
def PandaNetworkTransport.get_messages (t : PandaNetworkTransport) :
    PyResult (List (Nat × List Nat) × PandaNetworkTransport) :=
  match collectMessages t.connections t.inbox with
  | .error e => .error e
  | .ok ms => .ok (ms, { t with inbox := [] })

/-- Embeds `PandaNetworkTransport.send`: with no `connection_id` the
payload is written to every live connection in table order (broadcast);
with one, `self._connections[connection_id]` is written alone, raising
`KeyError` for an unknown id. -/
def PandaNetworkTransport.send (t : PandaNetworkTransport) (message : List Nat)
    (connection_id : Option Nat) : PyResult PandaNetworkTransport :=
  match connection_id with
  | none =>
    .ok { t with outbox := t.outbox ++ t.connections.map (fun e => (e.2, message)) }
  | some cid =>
    match t.connections.find? (fun e => e.1 = cid) with
    | some e => .ok { t with outbox := t.outbox ++ [(e.2, message)] }
    | none => .error .keyError

/-- Embeds the `NetworkManager` state: its fixed role, the message-type
registry, and the per-side transports. -/
structure NetworkManager where
  net_role : NetRole
  message_types : List MsgType
  client_transport : Option PandaNetworkTransport
  server_transport : Option PandaNetworkTransport
deriving DecidableEq, Repr

/-- The transport object held in one of the manager's two slots. -/
def NetworkManager.getTransport (m : NetworkManager) : TransportSide →
    Option PandaNetworkTransport
  | .client => m.client_transport
  | .server => m.server_transport

/-- Store an updated transport back into its slot. -/
def NetworkManager.setTransport (m : NetworkManager) :
    TransportSide → PandaNetworkTransport → NetworkManager
  | .client, t => { m with client_transport := some t }
  | .server, t => { m with server_transport := some t }

/-- Embeds `NetworkManager._transport_from_netrole`: `DUAL` on a
`DUAL`-role manager is an ambiguity error; a non-`DUAL` manager
overwrites the argument with its own role; the result names the slot
whose transport the source returns. -/
def transport_from_netrole (m : NetworkManager) (netrole : NetRole) :
    PyResult TransportSide :=
  if m.net_role = .DUAL && netrole = .DUAL then
    .error (.runtimeError "Must specify a netrole when running as NetRole.DUAL")
  else
    let nr := if m.net_role ≠ .DUAL then m.net_role else netrole
    if nr = .CLIENT then .ok .client
    else if nr = .SERVER then .ok .server
    else .error (.runtimeError "Could not find a transport object for netrole")

/-- Embeds `NetworkManager.send`: serialize first, then resolve the
transport and hand it the bytes — with no `connection_id` argument, so
the transport's default (`None`, broadcast) applies. An empty transport
slot would be the `AttributeError` a `None` transport raises. -/
def NetworkManager.send (m : NetworkManager) (message : Msg) (netrole : NetRole) :
    PyResult NetworkManager :=
  match serialize_net_msg m.message_types message with
  | .error e => .error e
  | .ok msgbytes =>
    match transport_from_netrole m netrole with
    | .error e => .error e
    | .ok side =>
      match m.getTransport side with
      | none => .error (.attributeError "NoneType object has no attribute send")
      | some t =>
        match t.send msgbytes none with
        | .error e => .error e
        | .ok t2 => .ok (m.setTransport side t2)

/-- Embeds `NetworkManager.get_messages`: resolve the transport, drain
its queue, and apply `_deserialize_net_msg` to each drained element —
which is the `(connection_id, bytes)` pair itself, exactly as the list
comprehension in the source does. -/
def NetworkManager.get_messages (m : NetworkManager) (netrole : NetRole) :
    PyResult (List Msg × NetworkManager) :=
  match transport_from_netrole m netrole with
  | .error e => .error e
  | .ok side =>
    match m.getTransport side with
    | none => .error (.attributeError "NoneType object has no attribute get_messages")
    | some t =>
      match t.get_messages with
      | .error e => .error e
      | .ok (pairs, t2) =>
        match pairs.mapM (fun pr => deserialize_net_msg m.message_types (.pair pr.1 pr.2)) with
        | .error e => .error e
        | .ok msgs => .ok (msgs, m.setTransport side t2)

/-- An environment-driven operation on one transport instance: the
events the host loop and the network can feed it. -/
inductive TransportOp
  | startServer (openOk : Bool)
  | startClient (connOk : Bool) (handle : Nat)
  | newConnections (handles : List Nat)
  | disconnects (handles : List Nat)
  | deliver (handle : Nat) (bs : List Nat)
  | getMessages
  | sendMsg (bs : List Nat) (target : Option Nat)
deriving DecidableEq, Repr

/-- One step of a transport's life: apply an operation, keeping only the
state (returned id lists are projections of the ghost fields). -/
def PandaNetworkTransport.step (t : PandaNetworkTransport) :
    TransportOp → PyResult PandaNetworkTransport
  | .startServer openOk => t.start_server openOk
  | .startClient connOk handle => t.start_client connOk handle
  | .newConnections handles => .ok (t.get_new_connections handles).2
  | .disconnects handles => (t.get_disconnects handles).map Prod.snd
  | .deliver handle bs => .ok { t with inbox := t.inbox ++ [(handle, bs)] }
  | .getMessages => t.get_messages.map Prod.snd
  | .sendMsg bs target => t.send bs target

/-- Run a transport from construction through a sequence of operations,
stopping at the first raised exception. -/
def PandaNetworkTransport.exec (ops : List TransportOp) : PyResult PandaNetworkTransport :=
  ops.foldlM PandaNetworkTransport.step PandaNetworkTransport.init

/-- A live game-state object, distinguished by the name it was
constructed for and a construction counter. -/
structure GameStateInst where
  name : String
  inst : Nat
deriving DecidableEq, Repr

/-- Observable calls into game-state objects, in order. -/
inductive GEvent
  | cleanup (s : GameStateInst)
  | start (s : GameStateInst)
  | update (s : GameStateInst)
deriving DecidableEq, Repr

/-- Embeds `GameStateManager`: the registered state names, whether a
presentation `ShowBase` is attached, the lifecycle fields of the source,
a count of queued `load_state` tasks, a construction counter, and
the ghost trace of calls made into state objects. -/
structure GameStateManager where
  states : List String
  base : Bool
  current_state : Option GameStateInst
  previous_state_name : String
  current_state_name : String
  load_complete : Bool
  pending_tasks : Nat
  next_inst : Nat
  events : List GEvent
deriving DecidableEq, Repr

/-- A freshly constructed manager: `load_complete` starts false and no
state is current. -/
def GameStateManager.mk0 (states : List String) (base : Bool) : GameStateManager :=
  ⟨states, base, none, "", "", false, 0, 0, []⟩

/-- Embeds `GameStateManager.change`: reject unknown names; on the very
first transition set `previous_state_name` to the new name itself,
otherwise to the outgoing state's name after its `cleanup`; construct
the new state object and queue the asynchronous `load_state` task.
Exactly as in the source, `load_complete` is not touched here — only
the queued task modifies it. -/
def GameStateManager.change (m : GameStateManager) (state_name : String) :
    PyResult GameStateManager :=
  if state_name ∉ m.states then
    .error (.runtimeError ("Unknown state name: " ++ state_name))
  else
    let m1 :=
      match m.current_state with
      | none => { m with previous_state_name := state_name }
      | some cur =>
        { m with previous_state_name := m.current_state_name,
                 events := m.events ++ [GEvent.cleanup cur] }
    .ok { m1 with
      current_state_name := state_name,
      current_state := some ⟨state_name, m1.next_inst⟩,
      next_inst := m1.next_inst + 1,
      pending_tasks := m1.pending_tasks + 1 }

/-- Embeds `GameStateManager.update`: dispatch to the current state only
when one exists and `load_complete` is true. -/
def GameStateManager.update (m : GameStateManager) : GameStateManager :=
  match m.current_state with
  | some st => if m.load_complete then { m with events := m.events ++ [.update st] } else m
  | none => m

/-- Embeds running one queued `load_state` task to completion (its fade
and resource-load awaits resolved): with no presentation base it only
sets `load_complete` (never calling `start`); with one it clears
`load_complete`, awaits, calls the current state's `start`, and sets
`load_complete`. -/
def GameStateManager.run_load_task (m : GameStateManager) : GameStateManager :=
  if m.pending_tasks = 0 then m
  else
    let m1 := { m with pending_tasks := m.pending_tasks - 1 }
    if !m1.base then { m1 with load_complete := true }
    else
      match m1.current_state with
      | some st => { m1 with events := m1.events ++ [.start st], load_complete := true }
      | none => { m1 with load_complete := true }

/-- Embeds `GameStateManager.change_to_previous`. -/
def GameStateManager.change_to_previous (m : GameStateManager) : PyResult GameStateManager :=
  m.change m.previous_state_name

/-- Well-formedness of a message instance in the modelled domain: its
field dict lists exactly the declared fields in declaration order (as
`dataclasses.asdict` guarantees), the declared fields are distinct and
do not include the reserved `__typeid__` key, and the values are in the
modelled JSON domain. -/
def WFMsg (m : Msg) : Prop :=
  m.fields.map Prod.fst = m.type.fieldNames ∧
  m.type.fieldNames.Nodup ∧
  "__typeid__" ∉ m.type.fieldNames ∧
  wfDictB m.fields = true

instance instDecidableWFMsg (m : Msg) : Decidable (WFMsg m) := by
  rw [WFMsg]
  infer_instance

/-- The connection-table invariant of one transport: the ids assigned so
far are exactly 0, 1, …, `next_id` − 1 in order of assignment (hence
strictly increasing from 0 and never repeated), live connection ids are
pairwise distinct, and every live id was assigned. -/
def TransportInv (t : PandaNetworkTransport) : Prop :=
  t.issued = List.range t.next_id ∧
  (t.connections.map Prod.fst).Nodup ∧
  ∀ id ∈ t.connections.map Prod.fst, id ∈ t.issued

instance instDecidableTransportInv (t : PandaNetworkTransport) :
    Decidable (TransportInv t) := by
  rw [TransportInv]
  infer_instance

/-- A registered message type with one string field, as in the
repository's own test message. -/
def mtData : MsgType := ⟨0, true, ["data"]⟩

/-- A concrete message of `mtData`. -/
def msgData : Msg := ⟨mtData, [("data", JVal.jstr "hi")]⟩

/-- A message type carrying a `connection_id` field. -/
def mtConn : MsgType := ⟨1, true, ["connection_id"]⟩

/-- A message of `mtConn` addressed (per the spec's reading) to
connection 1. -/
def msgConn : Msg := ⟨mtConn, [("connection_id", JVal.jint 1)]⟩

/-- The bytes `_serialize_net_msg` produces for `msgData` when `mtData`
is the first registered type. -/
def wireBytesData : List Nat :=
  jsonEncode [("data", JVal.jstr "hi"), ("__typeid__", JVal.jint 0)]

/-- A family of pairwise distinct registrable message types. -/
def mkMsgType (i : Nat) : MsgType := ⟨i, true, []⟩

/-- 256 distinct message types. -/
def types256 : List MsgType := (List.range 256).map mkMsgType

/-- 257 distinct message types. -/
def types257 : List MsgType := (List.range 257).map mkMsgType

/-- A started server transport with one live connection (id 0, socket
100) whose reader holds one valid message from that socket. -/
def srvTransportC3 : PandaNetworkTransport :=
  ⟨true, true, [(0, 100)], 1, [(100, wireBytesData)], [], [0]⟩

/-- A server-role manager with `mtData` registered, over `srvTransportC3`. -/
def mgrC3 : NetworkManager := ⟨.SERVER, [mtData], none, some srvTransportC3⟩

/-- A started server transport with two live connections. -/
def srvTransportTwo : PandaNetworkTransport :=
  ⟨true, true, [(0, 100), (1, 101)], 2, [], [], [0, 1]⟩

/-- A server-role manager with `mtConn` registered, over a transport
with two live connections. -/
def mgrC4 : NetworkManager := ⟨.SERVER, [mtConn], none, some srvTransportTwo⟩

/-- A started client transport with its single outbound connection. -/
def clientTOne : PandaNetworkTransport := ⟨true, false, [(0, 50)], 1, [], [], [0]⟩

/-- A DUAL-role manager holding both transports. -/
def mgrDual : NetworkManager := ⟨.DUAL, [mtData], some clientTOne, some srvTransportTwo⟩

/-- A SERVER-only manager. -/
def mgrServer : NetworkManager := ⟨.SERVER, [mtData], none, some srvTransportTwo⟩

/-- A CLIENT-only manager. -/
def mgrClient : NetworkManager := ⟨.CLIENT, [mtData], some clientTOne, none⟩

/-- A manager mid-life: state "A" fully loaded and active. -/
def gsmActiveA : GameStateManager :=
  ⟨["A", "B"], true, some ⟨"A", 0⟩, "A", "A", true, 0, 1, [GEvent.start ⟨"A", 0⟩]⟩

/-- The manager state `change` produces on a fresh manager (no current
state): bootstrap previous-state, new state object queued for loading. -/
def changeResult (m : GameStateManager) (name : String) : GameStateManager :=
  { m with
    previous_state_name := name,
    current_state_name := name,
    current_state := some ⟨name, m.next_inst⟩,
    next_inst := m.next_inst + 1,
    pending_tasks := m.pending_tasks + 1 }

/-- The bytes `_serialize_net_msg` produces for `msgConn` on `mgrC4`. -/
def wireBytesConn : List Nat :=
  jsonEncode [("connection_id", JVal.jint 1), ("__typeid__", JVal.jint 0)]

/-- A transport after broadcasting a payload to all its connections. -/
def afterBroadcast (t : PandaNetworkTransport) (bs : List Nat) : PandaNetworkTransport :=
  { t with outbox := t.outbox ++ t.connections.map (fun c => (c.2, bs)) }

/-- A transport after a unicast write to one socket. -/
def afterUnicast (t : PandaNetworkTransport) (handle : Nat) (bs : List Nat) :
    PandaNetworkTransport :=
  { t with outbox := t.outbox ++ [(handle, bs)] }

/-! Round-trip properties of the modelled JSON serializer. -/

/-- Splitting an append at the first byte failing the predicate. -/
theorem takeWhile_dropWhile_append (p : Nat → Bool) (xs ys : List Nat)
    (h1 : ∀ x ∈ xs, p x = true) (h2 : ∀ y, ys.head? = some y → p y = false) :
    (xs ++ ys).takeWhile p = xs ∧ (xs ++ ys).dropWhile p = ys := by
  induction xs with
  | nil =>
    cases ys with
    | nil => simp
    | cons y t => simp [List.takeWhile_cons, List.dropWhile_cons, h2 y rfl]
  | cons x xs ih =>
    have hx : p x = true := h1 x (by simp)
    have ihr := ih (fun a ha => h1 a (by simp [ha]))
    simp [List.takeWhile_cons, List.dropWhile_cons, hx, ihr.1, ihr.2]

/-- The fuelled digit extractor agrees with `Nat.digits`. -/
theorem natBytesAux_eq (fuel : Nat) : ∀ n : Nat, n ≤ fuel →
    natBytesAux fuel n = (Nat.digits 10 n).map (· + 48) := by
  induction fuel with
  | zero =>
    intro n hn
    interval_cases n
    simp [natBytesAux]
  | succ fuel ih =>
    intro n hn
    match n with
    | 0 => simp [natBytesAux]
    | m + 1 =>
      have hd : Nat.digits 10 (m + 1) = (m + 1) % 10 :: Nat.digits 10 ((m + 1) / 10) :=
        Nat.digits_def' (by norm_num) (Nat.succ_pos m)
      have hle : (m + 1) / 10 ≤ fuel := by
        have := Nat.div_lt_self (Nat.succ_pos m) (by norm_num : (1 : Nat) < 10)
        omega
      simp [natBytesAux, hd, ih _ hle]

/-- Decimal representation via `Nat.digits`. -/
theorem natBytes_eq (n : Nat) :
    natBytes n = if n = 0 then [48] else ((Nat.digits 10 n).map (· + 48)).reverse := by
  by_cases h : n = 0 <;> simp [natBytes, h, natBytesAux_eq n n le_rfl]

/-- Every byte of a decimal representation is a digit byte. -/
theorem natBytes_all_digits (n : Nat) : ∀ b ∈ natBytes n, isDigitByte b = true := by
  intro b hb
  rw [natBytes_eq] at hb
  by_cases h : n = 0
  · simp [h] at hb
    simp [hb, isDigitByte]
  · simp [h, List.mem_reverse, List.mem_map] at hb
    obtain ⟨d, hd, rfl⟩ := hb
    have := Nat.digits_lt_base (by norm_num : (1 : Nat) < 10) hd
    simp [isDigitByte]
    omega

/-- Decimal representations are nonempty. -/
theorem natBytes_ne_nil (n : Nat) : natBytes n ≠ [] := by
  rw [natBytes_eq]
  by_cases h : n = 0
  · simp [h]
  · simp [h, Nat.digits_ne_nil_iff_ne_zero]

/-- Folding the parser's accumulator over a reversed digit string. -/
theorem foldl_digits (L : List Nat) (acc : Nat) :
    ((L.map (· + 48)).reverse).foldl (fun a d => a * 10 + (d - 48)) acc
      = acc * 10 ^ L.length + Nat.ofDigits 10 L := by
  induction L generalizing acc with
  | nil => simp
  | cons d T ih =>
    have : ((d :: T).map (· + 48)).reverse = (T.map (· + 48)).reverse ++ [d + 48] := by
      simp
    rw [this, List.foldl_append, ih]
    simp [Nat.ofDigits_cons, pow_succ, Nat.add_sub_cancel]
    ring

/-- Parsing back the decimal digits of a natural number. -/
theorem digitsToNat_natBytes (n : Nat) : digitsToNat (natBytes n) = n := by
  rw [natBytes_eq]
  by_cases h : n = 0
  · simp [h, digitsToNat]
  · simp only [h, if_false]
    unfold digitsToNat
    rw [foldl_digits]
    simp [Nat.ofDigits_digits]

/-- The integer token parser inverts the integer encoder whenever no
digit byte follows. -/
theorem parseIntTok_append (n : Int) (rest : List Nat)
    (h : ∀ y, rest.head? = some y → isDigitByte y = false) :
    parseIntTok (intBytes n ++ rest) = some (n, rest) := by
  cases n with
  | ofNat m =>
    obtain ⟨b, t, hbt⟩ : ∃ b t, natBytes m = b :: t := by
      cases hh : natBytes m with
      | nil => exact absurd hh (natBytes_ne_nil m)
      | cons b t => exact ⟨b, t, rfl⟩
    have hbd : isDigitByte b = true := natBytes_all_digits m b (by simp [hbt])
    have hb45 : b ≠ 45 := by
      simp [isDigitByte] at hbd
      omega
    have hhead : (intBytes (Int.ofNat m) ++ rest).head? = some b := by
      simp [intBytes, hbt]
    have hne : ¬((intBytes (Int.ofNat m) ++ rest).head? = some 45) := by
      rw [hhead]
      simp [hb45]
    rw [parseIntTok, if_neg hne]
    simp only [intBytes]
    rw [(takeWhile_dropWhile_append isDigitByte (natBytes m) rest
      (natBytes_all_digits m) h).1,
      (takeWhile_dropWhile_append isDigitByte (natBytes m) rest
      (natBytes_all_digits m) h).2]
    have : (natBytes m).isEmpty = false := by
      simp [List.isEmpty_iff, natBytes_ne_nil m]
    simp [this, digitsToNat_natBytes]
  | negSucc m =>
    have hsh : intBytes (Int.negSucc m) ++ rest = 45 :: (natBytes (m + 1) ++ rest) := by
      simp [intBytes]
    rw [hsh, parseIntTok]
    simp only [List.head?_cons, List.tail_cons, if_pos rfl]
    rw [(takeWhile_dropWhile_append isDigitByte (natBytes (m + 1)) rest
      (natBytes_all_digits (m + 1)) h).1,
      (takeWhile_dropWhile_append isDigitByte (natBytes (m + 1)) rest
      (natBytes_all_digits (m + 1)) h).2]
    have : (natBytes (m + 1)).isEmpty = false := by
      simp [List.isEmpty_iff, natBytes_ne_nil (m + 1)]
    simp [this, digitsToNat_natBytes, Int.negSucc_eq]

/-- The string scanner stops exactly at the closing quote. -/
theorem scanStr_append (cs rest : List Nat) (h : ∀ c ∈ cs, c ≠ 34) :
    scanStr (cs ++ 34 :: rest) = some (cs, rest) := by
  induction cs with
  | nil => simp [scanStr]
  | cons c t ih =>
    have hc : c ≠ 34 := h c (by simp)
    simp [scanStr, hc, ih (fun a ha => h a (by simp [ha]))]

/-- Rebuilding a string from its own byte codes. -/
theorem bytesToStr_strBytes (s : String) : bytesToStr (strBytes s) = s := by
  cases s with
  | mk data =>
    simp [bytesToStr, strBytes, List.map_map, Function.comp_def, Char.ofNat_toNat]

/-- In the modelled domain no character code is a quote. -/
theorem wfStrB_no_quote (s : String) (h : wfStrB s = true) :
    ∀ c ∈ strBytes s, c ≠ 34 := by
  intro c hc
  simp [strBytes] at hc
  obtain ⟨ch, hch, rfl⟩ := hc
  have := (List.all_eq_true.mp h) ch hch
  simp [wfCharB] at this
  omega

/-- The value parser inverts the value encoder whenever no digit byte
follows. -/
theorem parseVal_append (v : JVal) (rest : List Nat) (hwf : wfValB v = true)
    (h : ∀ y, rest.head? = some y → isDigitByte y = false) :
    parseVal (encodeVal v ++ rest) = some (v, rest) := by
  cases v with
  | jint n =>
    obtain ⟨b, t, hbt⟩ : ∃ b t, intBytes n = b :: t := by
      cases n with
      | ofNat m =>
        cases hh : natBytes m with
        | nil => exact absurd hh (natBytes_ne_nil m)
        | cons b t => exact ⟨b, t, by simp [intBytes, hh]⟩
      | negSucc m => exact ⟨45, natBytes (m + 1), rfl⟩
    have hb34 : b ≠ 34 := by
      have hmem : b ∈ intBytes n := by simp [hbt]
      cases n with
      | ofNat m =>
        have := natBytes_all_digits m b (by simpa [intBytes] using hmem)
        simp [isDigitByte] at this
        omega
      | negSucc m =>
        simp [intBytes] at hmem
        rcases hmem with h45 | hdig
        · omega
        · have := natBytes_all_digits (m + 1) b hdig
          simp [isDigitByte] at this
          omega
    have hshape : encodeVal (JVal.jint n) ++ rest = b :: (t ++ rest) := by
      simp [encodeVal, hbt]
    rw [hshape, parseVal, if_neg hb34]
    rw [show b :: (t ++ rest) = intBytes n ++ rest by simp [hbt]]
    simp [parseIntTok_append n rest h]
  | jstr s =>
    have hshape : encodeVal (JVal.jstr s) ++ rest = 34 :: (strBytes s ++ 34 :: rest) := by
      simp [encodeVal]
    rw [hshape, parseVal]
    simp only [if_pos rfl, parseStrTok]
    rw [scanStr_append (strBytes s) rest (wfStrB_no_quote s hwf)]
    simp [bytesToStr_strBytes, if_pos rfl]

/-- The entry parser inverts the entry encoder whenever no digit byte
follows. -/
theorem parseEntry_append (e : String × JVal) (rest : List Nat)
    (hk : wfStrB e.1 = true) (hv : wfValB e.2 = true)
    (h : ∀ y, rest.head? = some y → isDigitByte y = false) :
    parseEntry (encodeEntry e ++ rest) = some (e, rest) := by
  have hshape : encodeEntry e ++ rest
      = 34 :: (strBytes e.1 ++ 34 :: (58 :: 32 :: (encodeVal e.2 ++ rest))) := by
    simp [encodeEntry]
  rw [hshape, parseEntry]
  simp only [if_pos rfl]
  rw [scanStr_append (strBytes e.1) _ (wfStrB_no_quote e.1 hk)]
  simp only
  rw [parseVal_append e.2 rest hv h]
  simp [bytesToStr_strBytes]

/-- The entry-sequence parser inverts the entry-sequence encoder up to
the closing brace, given enough fuel. -/
theorem parseEntries_append (d : JDict) (rest : List Nat) (fuel : Nat)
    (hne : d ≠ []) (hwf : wfDictB d = true) (hfuel : d.length ≤ fuel) :
    parseEntries fuel (encodeEntries d ++ 125 :: rest) = some (d, rest) := by
  induction d generalizing fuel rest with
  | nil => exact absurd rfl hne
  | cons e t ih =>
    have hwfe : wfStrB e.1 = true ∧ wfValB e.2 = true := by
      have := (List.all_eq_true.mp hwf) e (by simp)
      simpa using this
    cases fuel with
    | zero => simp at hfuel
    | succ fuel =>
      cases t with
      | nil =>
        rw [show encodeEntries [e] = encodeEntry e from rfl, parseEntries]
        rw [parseEntry_append e (125 :: rest) hwfe.1 hwfe.2
          (by intro y hy; simp at hy; subst hy; decide)]
        simp
      | cons f t2 =>
        have hshape : encodeEntries (e :: f :: t2) ++ 125 :: rest
            = encodeEntry e ++ (44 :: 32 :: (encodeEntries (f :: t2) ++ 125 :: rest)) := by
          simp [encodeEntries]
        rw [hshape, parseEntries]
        rw [parseEntry_append e _ hwfe.1 hwfe.2
          (by intro y hy; simp at hy; subst hy; decide)]
        have hwft : wfDictB (f :: t2) = true := by
          rw [wfDictB, List.all_eq_true]
          intro x hx
          exact (List.all_eq_true.mp hwf) x (by simp [hx])
        have hlen : (f :: t2).length ≤ fuel := by
          simp at hfuel ⊢
          omega
        rw [Option.some_bind]
        simp [ih rest fuel (by simp) hwft hlen]

/-- Entry encodings are nonempty. -/
theorem encodeEntries_ne_nil (d : JDict) (h : d ≠ []) : encodeEntries d ≠ [] := by
  match d with
  | [e] => simp [encodeEntries, encodeEntry]
  | e :: f :: t => simp [encodeEntries, encodeEntry]

/-- Each entry consumes at least one encoded byte. -/
theorem length_le_encodeEntries (d : JDict) : d.length ≤ (encodeEntries d).length + 1 := by
  match d with
  | [] => simp
  | [e] => simp
  | e :: f :: t =>
    have ih := length_le_encodeEntries (f :: t)
    simp [encodeEntries, encodeEntry] at ih ⊢
    omega

/-- The modelled `json.loads` inverts the modelled `json.dumps` on
well-formed dicts. -/
theorem jsonParse_jsonEncode (d : JDict) (hwf : wfDictB d = true) :
    jsonParse (jsonEncode d) = some d := by
  cases hd : d with
  | nil => simp [jsonEncode, jsonParse, encodeEntries]
  | cons e t =>
    rw [jsonEncode, jsonParse]
    have hne : encodeEntries (e :: t) ≠ [] := encodeEntries_ne_nil _ (by simp)
    have hrest : encodeEntries (e :: t) ++ [125] ≠ [125] := by
      intro hcontra
      have hlen : (encodeEntries (e :: t)).length + 1 = 1 := by
        have := congrArg List.length hcontra
        simpa using this
      exact hne (List.eq_nil_of_length_eq_zero (by omega))
    rw [if_pos rfl, if_neg hrest]
    have hfuel : (e :: t).length ≤ (encodeEntries (e :: t) ++ [125]).length := by
      have h1 := length_le_encodeEntries (e :: t)
      rw [List.length_append]
      simpa using h1
    have hp : parseEntries ((encodeEntries (e :: t) ++ [125]).length)
        (encodeEntries (e :: t) ++ 125 :: []) = some (e :: t, []) := by
      exact parseEntries_append (e :: t) [] _ (by simp) (hd ▸ hwf) hfuel
    rw [show encodeEntries (e :: t) ++ [125] = encodeEntries (e :: t) ++ 125 :: [] from rfl]
    rw [hp]

/-! Registry and dict properties. -/

/-- The aux scan of `list.index` reports a position holding the element. -/
theorem pyListIndexAux_get (x : MsgType) (l : List MsgType) :
    ∀ (k i : Nat), pyListIndexAux x l k = some i →
      k ≤ i ∧ l.get? (i - k) = some x := by
  induction l with
  | nil => intro k i h; simp [pyListIndexAux] at h
  | cons y t ih =>
    intro k i h
    rw [pyListIndexAux] at h
    by_cases hy : y = x
    · rw [if_pos hy] at h
      obtain rfl : k = i := by simpa using h
      simp [hy]
    · rw [if_neg hy] at h
      obtain ⟨hk, hget⟩ := ih (k + 1) i h
      constructor
      · omega
      · have : i - k = (i - (k + 1)) + 1 := by omega
        rw [this]
        simpa using hget

/-- `list.index` reports an index holding the element. -/
theorem pyListIndex_get (xs : List MsgType) (x : MsgType) (i : Nat)
    (h : pyListIndex xs x = some i) : xs.get? i = some x := by
  have := pyListIndexAux_get x xs 0 i h
  simpa using this.2

/-- `list.index` fails exactly on absent elements. -/
theorem pyListIndex_eq_none (xs : List MsgType) (x : MsgType) :
    pyListIndex xs x = none ↔ x ∉ xs := by
  rw [pyListIndex]
  have haux : ∀ (l : List MsgType) (k : Nat), pyListIndexAux x l k = none ↔ x ∉ l := by
    intro l
    induction l with
    | nil => intro k; simp [pyListIndexAux]
    | cons y t ih =>
      intro k
      rw [pyListIndexAux]
      by_cases hy : y = x
      · simp [hy]
      · rw [if_neg hy, ih (k + 1)]
        constructor
        · intro h hmem
          simp at hmem
          rcases hmem with hc | hc
          · exact hy hc.symm
          · exact h hc
        · intro h hmem
          exact h (by simp [hmem])
  exact haux xs 0

/-- `list.index` finds an element appended to a list not containing it
at the old length: the next free tag. -/
theorem pyListIndex_append_self (xs : List MsgType) (x : MsgType) (h : x ∉ xs) :
    pyListIndex (xs ++ [x]) x = some xs.length := by
  rw [pyListIndex]
  have haux : ∀ (l : List MsgType) (k : Nat), x ∉ l →
      pyListIndexAux x (l ++ [x]) k = some (k + l.length) := by
    intro l
    induction l with
    | nil => intro k _; simp [pyListIndexAux]
    | cons y t ih =>
      intro k hmem
      have hy : y ≠ x := by intro hc; exact hmem (by simp [hc])
      rw [List.cons_append, pyListIndexAux, if_neg hy, ih (k + 1) (by
        intro hc; exact hmem (by simp [hc]))]
      simp
      omega
  simpa using haux xs 0 h

/-- A successful registration appends the type: no duplicate and a
dataclass. -/
theorem register_ok (types : List MsgType) (mt : MsgType)
    (h1 : mt ∉ types) (h2 : mt.isDataclass = true) :
    register_message_type types mt = .ok (types ++ [mt]) := by
  rw [register_message_type, (pyListIndex_eq_none types mt).mpr h1]
  simp [h2]

/-- Registering an already-registered type raises the duplicate error. -/
theorem register_dup (types : List MsgType) (mt : MsgType) (h : mt ∈ types) :
    register_message_type types mt
      = .error (.runtimeError "Cannot register NetworkMessage type: already registered") := by
  rw [register_message_type]
  cases hidx : pyListIndex types mt with
  | none => exact absurd ((pyListIndex_eq_none types mt).mp hidx) (by simp [h])
  | some i => rfl

/-- Registering a list of pairwise-new dataclass types succeeds and
appends them all in order, with no bound on the registry size. -/
theorem registerAll_ok (l : List MsgType) : ∀ (types : List MsgType),
    l.Nodup → (∀ x ∈ l, x.isDataclass = true) → (∀ x ∈ l, x ∉ types) →
    registerAll types l = .ok (types ++ l) := by
  induction l with
  | nil =>
    intro types _ _ _
    show (pure types : PyResult (List MsgType)) = Except.ok (types ++ [])
    simp
    rfl
  | cons x t ih =>
    intro types hnd hdc hnew
    have h1 : registerAll types (x :: t)
        = (register_message_type types x).bind (fun ts => registerAll ts t) := by
      rfl
    rw [h1, register_ok types x (hnew x (by simp)) (hdc x (by simp))]
    have ht := ih (types ++ [x]) (by simp at hnd; exact hnd.2)
      (fun y hy => hdc y (by simp [hy]))
      (fun y hy => by
        simp at hnd
        intro hc
        simp at hc
        rcases hc with hc | hc
        · exact hnew y (by simp [hy]) hc
        · exact hnd.1 (hc ▸ hy))
    show registerAll (types ++ [x]) t = Except.ok (types ++ x :: t)
    rw [ht]
    simp

/-- Looking up a key appended behind entries that do not carry it. -/
theorem dictGet_append (d : JDict) (k : String) (v : JVal)
    (h : k ∉ d.map Prod.fst) : dictGet (d ++ [(k, v)]) k = .ok v := by
  rw [dictGet]
  have hfind : (d ++ [(k, v)]).find? (fun e => e.1 = k) = some (k, v) := by
    induction d with
    | nil => simp [List.find?]
    | cons e t ih =>
      have he : ¬(e.1 = k) := by
        intro hc
        exact h (by simp [hc.symm])
      rw [List.cons_append, List.find?_cons]
      simp only [he, decide_eq_true_eq, if_false, decide_eq_false_iff_not,
        not_false_iff, if_neg]
      exact ih (fun hc => h (by simp at hc ⊢; exact Or.inr hc))
  rw [hfind]

/-- Deleting a key appended behind entries that do not carry it. -/
theorem dictDel_append (d : JDict) (k : String) (v : JVal)
    (h : k ∉ d.map Prod.fst) : dictDel (d ++ [(k, v)]) k = d := by
  rw [dictDel, List.filter_append]
  have h1 : d.filter (fun e => !(e.1 = k)) = d := by
    rw [List.filter_eq_self]
    intro e he
    simp only [Bool.not_eq_eq_eq_not, Bool.not_true, decide_eq_false_iff_not]
    intro hc
    exact h (by simp; exact ⟨e.2, hc ▸ (by simpa using he)⟩)
  have h2 : ([(k, v)] : JDict).filter (fun e => !(e.1 = k)) = [] := by
    simp [List.filter]
  rw [h1, h2, List.append_nil]

/-- Rebuilding a dict from its own keys by first-match lookup. -/
theorem filterMap_find_self (d : JDict) (hnd : (d.map Prod.fst).Nodup) :
    (d.map Prod.fst).filterMap
      (fun f => (d.find? (fun e => e.1 = f)).map (fun e => (f, e.2))) = d := by
  induction d with
  | nil => simp
  | cons e t ih =>
    have hk : e.1 ∉ t.map Prod.fst := by
      simp at hnd
      simpa using hnd.1
    have hhead : (e :: t).find? (fun x => x.1 = e.1) = some e := by
      rw [List.find?_cons]
      simp
    have htail : (t.map Prod.fst).filterMap
        (fun f => ((e :: t).find? (fun x => x.1 = f)).map (fun x => (f, x.2)))
        = (t.map Prod.fst).filterMap
        (fun f => (t.find? (fun x => x.1 = f)).map (fun x => (f, x.2))) := by
      apply List.filterMap_congr
      intro f hf
      have hne : ¬(e.1 = f) := by
        intro hc
        exact hk (hc ▸ hf)
      rw [List.find?_cons]
      simp [hne]
    rw [List.map_cons, List.filterMap_cons, hhead, htail,
      ih (by simp at hnd; exact hnd.2)]
    simp

/-- A `kw_only` dataclass call with exactly the declared fields returns
the same dict. -/
theorem pyDataclassCall_exact (mt : MsgType) (d : JDict)
    (hkeys : d.map Prod.fst = mt.fieldNames) (hnd : mt.fieldNames.Nodup) :
    pyDataclassCall mt d = .ok ⟨mt, d⟩ := by
  rw [pyDataclassCall]
  have hcond1 : mt.fieldNames.all (fun f => d.any (fun e => e.1 = f)) = true := by
    rw [List.all_eq_true]
    intro f hf
    rw [← hkeys] at hf
    simp at hf
    obtain ⟨v, hv⟩ := hf
    rw [List.any_eq_true]
    exact ⟨(f, v), hv, by simp⟩
  have hcond2 : d.all (fun e => mt.fieldNames.contains e.1) = true := by
    rw [List.all_eq_true]
    intro e he
    rw [← hkeys]
    simp
    exact ⟨e.2, by simpa using he⟩
  rw [hcond1, hcond2]
  simp only [Bool.and_self, if_pos]
  rw [← hkeys, filterMap_find_self d (hkeys ▸ hnd)]

/-- The annotation loop passes when every key is a declared field. -/
theorem annotationsCheck_ok (mt : MsgType) (d : JDict)
    (hkeys : d.map Prod.fst = mt.fieldNames) : annotationsCheck mt d = .ok () := by
  rw [annotationsCheck]
  have : d.all (fun e => mt.fieldNames.contains e.1) = true := by
    rw [List.all_eq_true]
    intro e he
    rw [← hkeys]
    simp
    exact ⟨e.2, by simpa using he⟩
  rw [this]
  simp

/-- What `_serialize_net_msg` hands to the transport for a registered
message: the serializer's encoding of the field dict extended with the
`__typeid__` entry — no separate leading tag byte exists. -/
theorem serialize_net_msg_eq (types : List MsgType) (m : Msg) (i : Nat)
    (hi : pyListIndex types m.type = some i)
    (hkey : "__typeid__" ∉ m.fields.map Prod.fst) :
    serialize_net_msg types m
      = .ok (jsonEncode (m.fields ++ [("__typeid__", JVal.jint i)])) := by
  have hset : dictSet m.fields "__typeid__" (JVal.jint i)
      = m.fields ++ [("__typeid__", JVal.jint i)] := by
    rw [dictSet]
    have : m.fields.any (fun e => e.1 = "__typeid__") = false := by
      rw [List.any_eq_false]
      intro e he
      simp only [decide_eq_true_eq]
      intro hc
      exact hkey (by simp; exact ⟨e.2, hc ▸ (by simpa using he)⟩)
    rw [this]
    simp
  simp only [serialize_net_msg, hi, hset]
  rfl

/-- Deserializing the exact bytes `_serialize_net_msg` produced yields
the original message back, with the type looked up through the embedded
`__typeid__` registry index. -/
theorem deserialize_serialize (types : List MsgType) (m : Msg) (i : Nat)
    (hi : pyListIndex types m.type = some i) (hwf : WFMsg m) :
    deserialize_net_msg types
      (.bytes (jsonEncode (m.fields ++ [("__typeid__", JVal.jint i)]))) = .ok m := by
  obtain ⟨hkeys, hnd, hres, hdom⟩ := hwf
  have hkey : "__typeid__" ∉ m.fields.map Prod.fst := by
    rw [hkeys]
    exact hres
  have hwfall : wfDictB (m.fields ++ [("__typeid__", JVal.jint i)]) = true := by
    rw [wfDictB, List.all_eq_true]
    intro e he
    simp at he
    rcases he with he | he
    · exact (List.all_eq_true.mp hdom) e he
    · rw [he]
      have h1 : wfStrB "__typeid__" = true := by decide
      simp [h1, wfValB]
  have hparse := jsonParse_jsonEncode _ hwfall
  have hdeser : JsonNetworkSerializer.deserialize
      (.bytes (jsonEncode (m.fields ++ [("__typeid__", JVal.jint i)])))
      = .ok (m.fields ++ [("__typeid__", JVal.jint i)]) := by
    rw [JsonNetworkSerializer.deserialize, hparse]
  have hpl : pyListGet types ((i : Nat) : Int) = .ok m.type := by
    rw [pyListGet]
    have hneg : ¬(((i : Nat) : Int) < 0) := by omega
    simp only [hneg, if_false, Int.toNat_natCast, if_neg, not_false_iff]
    rw [pyListIndex_get types m.type i hi]
  simp only [deserialize_net_msg, hdeser,
    dictGet_append m.fields "__typeid__" (JVal.jint i) hkey,
    dictDel_append m.fields "__typeid__" (JVal.jint i) hkey,
    hpl, annotationsCheck_ok m.type m.fields hkeys,
    pyDataclassCall_exact m.type m.fields hkeys hnd]

/-- Claim C1, as stated, is false at a registered one-field message: the
bytes `_serialize_net_msg` hands to the transport do not consist of a
1-byte type tag followed by the serialized payload — they begin with the
serializer's opening byte 123 (the brace of the JSON object), not with
the type's registry index 0, and differ from tag-plus-payload. -/
theorem C1_counterexample :
    serialize_net_msg [mtData] msgData = .ok wireBytesData ∧
    wireBytesData.head? = some 123 ∧
    wireBytesData ≠ 0 :: JsonNetworkSerializer.serialize msgData.fields := by
  decide

/-- Claim C1 amended: for every registered well-formed message, the
bytes handed to the transport are the serializer's encoding of the field
dict extended with a `__typeid__` entry holding the type's registry
index (no separate leading tag byte), and `_deserialize_net_msg`
deserializes the whole byte string and reads the embedded `__typeid__`
entry to look up the type, reconstructing the original message. -/
theorem C1_amended (types : List MsgType) (m : Msg) (i : Nat)
    (hi : pyListIndex types m.type = some i) (hwf : WFMsg m) :
    serialize_net_msg types m
      = .ok (jsonEncode (m.fields ++ [("__typeid__", JVal.jint i)])) ∧
    deserialize_net_msg types
      (.bytes (jsonEncode (m.fields ++ [("__typeid__", JVal.jint i)]))) = .ok m := by
  have hkey : "__typeid__" ∉ m.fields.map Prod.fst := by
    rw [hwf.1]
    exact hwf.2.2.1
  exact ⟨serialize_net_msg_eq types m i hi hkey, deserialize_serialize types m i hi hwf⟩

/-- Witness for C1 amended at the one-field registry. -/
theorem C1_amended_witness :
    (pyListIndex [mtData] msgData.type = some 0 ∧ WFMsg msgData) ∧
    (serialize_net_msg [mtData] msgData
      = .ok (jsonEncode (msgData.fields ++ [("__typeid__", JVal.jint 0)])) ∧
    deserialize_net_msg [mtData]
      (.bytes (jsonEncode (msgData.fields ++ [("__typeid__", JVal.jint 0)])))
      = .ok msgData) :=
  ⟨⟨by decide, by decide⟩, C1_amended [mtData] msgData 0 (by decide) (by decide)⟩

/-- Claim C2: registering three distinct dataclass types in order
assigns registry indices (the wire tags used by `_serialize_net_msg`)
0, 1, 2; re-registering any of them raises the duplicate
`RuntimeError` without mutating the registry; and a fresh type
registered after such a failure is appended with the next free tag. -/
theorem C2_type_tags (T1 T2 T3 T4 Td : MsgType)
    (h12 : T1 ≠ T2) (h13 : T1 ≠ T3) (h23 : T2 ≠ T3)
    (hd1 : T1.isDataclass = true) (hd2 : T2.isDataclass = true)
    (hd3 : T3.isDataclass = true)
    (hdup : Td ∈ [T1, T2, T3])
    (h4 : T4 ∉ [T1, T2, T3]) (hd4 : T4.isDataclass = true) :
    register_message_type [] T1 = .ok [T1] ∧
    register_message_type [T1] T2 = .ok [T1, T2] ∧
    register_message_type [T1, T2] T3 = .ok [T1, T2, T3] ∧
    pyListIndex [T1, T2, T3] T1 = some 0 ∧
    pyListIndex [T1, T2, T3] T2 = some 1 ∧
    pyListIndex [T1, T2, T3] T3 = some 2 ∧
    register_message_type [T1, T2, T3] Td
      = .error (.runtimeError "Cannot register NetworkMessage type: already registered") ∧
    register_message_type [T1, T2, T3] T4 = .ok [T1, T2, T3, T4] ∧
    pyListIndex [T1, T2, T3, T4] T4 = some 3 := by
  refine ⟨?_, ?_, ?_, ?_, ?_, ?_, ?_, ?_, ?_⟩
  · exact register_ok [] T1 (by simp) hd1
  · exact register_ok [T1] T2 (by
      simp
      intro h
      exact h12 h.symm) hd2
  · exact register_ok [T1, T2] T3 (by
      simp
      constructor
      · intro h
        exact h13 h.symm
      · intro h
        exact h23 h.symm) hd3
  · simp [pyListIndex, pyListIndexAux]
  · simp [pyListIndex, pyListIndexAux, h12]
  · simp [pyListIndex, pyListIndexAux, h13, h23]
  · exact register_dup [T1, T2, T3] Td hdup
  · exact register_ok [T1, T2, T3] T4 h4 hd4
  · exact pyListIndex_append_self [T1, T2, T3] T4 h4

/-- Witness for C2 at four concrete distinct types, re-registering the
second one. -/
theorem C2_type_tags_witness :
    (mkMsgType 2 ∈ [mkMsgType 1, mkMsgType 2, mkMsgType 3] ∧
      mkMsgType 4 ∉ [mkMsgType 1, mkMsgType 2, mkMsgType 3]) ∧
    (register_message_type [] (mkMsgType 1) = .ok [mkMsgType 1] ∧
    register_message_type [mkMsgType 1] (mkMsgType 2) = .ok [mkMsgType 1, mkMsgType 2] ∧
    register_message_type [mkMsgType 1, mkMsgType 2] (mkMsgType 3)
      = .ok [mkMsgType 1, mkMsgType 2, mkMsgType 3] ∧
    pyListIndex [mkMsgType 1, mkMsgType 2, mkMsgType 3] (mkMsgType 1) = some 0 ∧
    pyListIndex [mkMsgType 1, mkMsgType 2, mkMsgType 3] (mkMsgType 2) = some 1 ∧
    pyListIndex [mkMsgType 1, mkMsgType 2, mkMsgType 3] (mkMsgType 3) = some 2 ∧
    register_message_type [mkMsgType 1, mkMsgType 2, mkMsgType 3] (mkMsgType 2)
      = .error (.runtimeError "Cannot register NetworkMessage type: already registered") ∧
    register_message_type [mkMsgType 1, mkMsgType 2, mkMsgType 3] (mkMsgType 4)
      = .ok [mkMsgType 1, mkMsgType 2, mkMsgType 3, mkMsgType 4] ∧
    pyListIndex [mkMsgType 1, mkMsgType 2, mkMsgType 3, mkMsgType 4] (mkMsgType 4)
      = some 3) :=
  ⟨⟨by decide, by decide⟩,
    C2_type_tags (mkMsgType 1) (mkMsgType 2) (mkMsgType 3) (mkMsgType 4) (mkMsgType 2)
      (by decide) (by decide) (by decide) (by decide) (by decide) (by decide)
      (by decide) (by decide) (by decide)⟩

/-- Claim C9, as stated, is false: registering a 257th message type does
not fail — all 257 registrations succeed and the registry holds 257
entries. -/
theorem C9_counterexample :
    registerAll [] types257 = .ok types257 ∧ types257.length = 257 := by
  have hinj : Function.Injective mkMsgType := by
    intro a b h
    simpa [mkMsgType] using h
  constructor
  · have h := registerAll_ok types257 []
      (List.Nodup.map hinj (List.nodup_range 257))
      (by
        intro x hx
        rw [types257] at hx
        simp [mkMsgType] at hx
        obtain ⟨j, _, rfl⟩ := hx
        rfl)
      (by intro x _; simp)
    simpa using h
  · simp [types257]

/-- Claim C9 amended: the registry has no size cap. Registering any
not-yet-registered dataclass type succeeds whatever the registry's
size, appending it with the next tag (the registry length), so a 257th
distinct type succeeds with tag 256; the tag is carried inside the
serialized dict as a number, not as one byte. -/
theorem C9_amended (types : List MsgType) (mt : MsgType)
    (h1 : mt ∉ types) (h2 : mt.isDataclass = true) :
    register_message_type types mt = .ok (types ++ [mt]) ∧
    pyListIndex (types ++ [mt]) mt = some types.length :=
  ⟨register_ok types mt h1 h2, pyListIndex_append_self types mt h1⟩

/-- Witness for C9 amended at a full 256-entry registry: the 257th
registration succeeds with tag 256. -/
theorem C9_amended_witness :
    (mkMsgType 256 ∉ types256 ∧ (mkMsgType 256).isDataclass = true) ∧
    (register_message_type types256 (mkMsgType 256) = .ok (types256 ++ [mkMsgType 256]) ∧
    pyListIndex (types256 ++ [mkMsgType 256]) (mkMsgType 256) = some types256.length) :=
  ⟨⟨by decide, by decide⟩, C9_amended types256 (mkMsgType 256) (by decide) (by decide)⟩

/-- Claim C3 evaluated on the code: the transport's own `get_messages`
correctly pairs the payload with sender connection id 0, but
`NetworkManager.get_messages` applies `_deserialize_net_msg` to the
`(connection_id, bytes)` pair itself, so deserialization raises a
`TypeError` and no message with a stamped `connection_id` is ever
produced. -/
theorem C3_code_eval :
    (PandaNetworkTransport.get_messages srvTransportC3).map Prod.fst
      = .ok [(0, wireBytesData)] ∧
    NetworkManager.get_messages mgrC3 .SERVER
      = .error (.typeError "the JSON object must be str, bytes or bytearray, not tuple") := by
  decide

/-- Claim C4, as stated, is false: on a SERVER-role manager with live
connections 0 (socket 100) and 1 (socket 101), sending a message whose
`connection_id` field is 1 writes the bytes to both sockets — the
manager passes no unicast target to the transport, so connection 0
receives the bytes too. -/
theorem C4_counterexample :
    msgConn.fields = [("connection_id", JVal.jint 1)] ∧
    (NetworkManager.send mgrC4 msgConn .SERVER).map
      (fun m => m.server_transport.map (fun t => t.outbox.map Prod.fst))
      = .ok (some [100, 101]) := by
  decide

/-- Claim C4 amended: `NetworkManager.send` always calls the transport's
`send` with no `connection_id`, broadcasting to every currently live
connection regardless of the message's own `connection_id` field; the
transport's `send` broadcasts on `None` and writes only the addressed
connection's socket when given a specific id. -/
theorem C4_amended (m : NetworkManager) (msg : Msg) (nr : NetRole)
    (side : TransportSide) (t : PandaNetworkTransport) (bs : List Nat)
    (cid : Nat) (e : Nat × Nat)
    (hs : serialize_net_msg m.message_types msg = .ok bs)
    (hr : transport_from_netrole m nr = .ok side)
    (ht : m.getTransport side = some t)
    (hfind : t.connections.find? (fun e2 => e2.1 = cid) = some e) :
    NetworkManager.send m msg nr = .ok (m.setTransport side (afterBroadcast t bs)) ∧
    t.send bs none = .ok (afterBroadcast t bs) ∧
    t.send bs (some cid) = .ok (afterUnicast t e.2 bs) := by
  refine ⟨?_, rfl, ?_⟩
  · simp only [NetworkManager.send, hs, hr, ht]
    rfl
  · rw [PandaNetworkTransport.send, hfind]
    rfl

/-- Witness for C4 amended on the two-connection server manager,
unicasting to connection 1. -/
theorem C4_amended_witness :
    (serialize_net_msg mgrC4.message_types msgConn = .ok wireBytesConn ∧
      transport_from_netrole mgrC4 .SERVER = .ok .server ∧
      mgrC4.getTransport .server = some srvTransportTwo ∧
      srvTransportTwo.connections.find? (fun e2 => e2.1 = 1) = some (1, 101)) ∧
    (NetworkManager.send mgrC4 msgConn .SERVER
        = .ok (mgrC4.setTransport .server (afterBroadcast srvTransportTwo wireBytesConn)) ∧
      srvTransportTwo.send wireBytesConn none
        = .ok (afterBroadcast srvTransportTwo wireBytesConn) ∧
      srvTransportTwo.send wireBytesConn (some 1)
        = .ok (afterUnicast srvTransportTwo 101 wireBytesConn)) :=
  ⟨⟨by decide, by decide, by decide, by decide⟩,
    C4_amended mgrC4 msgConn .SERVER .server srvTransportTwo wireBytesConn
      1 (1, 101) (by decide) (by decide) (by decide) (by decide)⟩

/-- Claim C5: on a DUAL-role manager, `send(msg, CLIENT)` writes the
bytes through the client-side transport and leaves the server-side
transport untouched; `send(msg, DUAL)` on a DUAL-role manager raises
the ambiguity `RuntimeError`; on a SERVER-role manager `send(msg, DUAL)`
is identical to `send(msg, SERVER)` and routes to the server-side
transport. -/
theorem C5_role_resolution (md ms : NetworkManager) (msg msg2 : Msg)
    (ct st : PandaNetworkTransport) (bs bs2 : List Nat)
    (hd : md.net_role = .DUAL)
    (hds : serialize_net_msg md.message_types msg = .ok bs)
    (hct : md.client_transport = some ct)
    (hms : ms.net_role = .SERVER)
    (hss : serialize_net_msg ms.message_types msg2 = .ok bs2)
    (hst : ms.server_transport = some st) :
    NetworkManager.send md msg .CLIENT
      = .ok { md with client_transport := some (afterBroadcast ct bs) } ∧
    (NetworkManager.send md msg .CLIENT).map (fun m2 => m2.server_transport)
      = .ok md.server_transport ∧
    NetworkManager.send md msg .DUAL
      = .error (.runtimeError "Must specify a netrole when running as NetRole.DUAL") ∧
    NetworkManager.send ms msg2 .DUAL = NetworkManager.send ms msg2 .SERVER ∧
    NetworkManager.send ms msg2 .DUAL
      = .ok { ms with server_transport := some (afterBroadcast st bs2) } := by
  have hr1 : transport_from_netrole md .CLIENT = .ok .client := by
    rw [transport_from_netrole]
    simp [hd]
  have hr2 : transport_from_netrole md .DUAL
      = .error (.runtimeError "Must specify a netrole when running as NetRole.DUAL") := by
    rw [transport_from_netrole]
    simp [hd]
  have hr3 : transport_from_netrole ms .DUAL = .ok .server := by
    rw [transport_from_netrole]
    simp [hms]
  have hr4 : transport_from_netrole ms .SERVER = .ok .server := by
    rw [transport_from_netrole]
    simp [hms]
  have hsend1 : NetworkManager.send md msg .CLIENT
      = .ok { md with client_transport := some (afterBroadcast ct bs) } := by
    simp only [NetworkManager.send, hds, hr1, NetworkManager.getTransport, hct]
    rfl
  refine ⟨hsend1, ?_, ?_, ?_, ?_⟩
  · rw [hsend1]
    rfl
  · simp only [NetworkManager.send, hds, hr2]
  · simp only [NetworkManager.send, hss, hr3, hr4]
  · simp only [NetworkManager.send, hss, hr3, NetworkManager.getTransport, hst]
    rfl

/-- Witness for C5 on concrete DUAL and SERVER managers. -/
theorem C5_role_resolution_witness :
    (mgrDual.net_role = .DUAL ∧
      serialize_net_msg mgrDual.message_types msgData = .ok wireBytesData ∧
      mgrDual.client_transport = some clientTOne ∧
      mgrServer.net_role = .SERVER ∧
      serialize_net_msg mgrServer.message_types msgData = .ok wireBytesData ∧
      mgrServer.server_transport = some srvTransportTwo) ∧
    (NetworkManager.send mgrDual msgData .CLIENT
        = .ok { mgrDual with client_transport := some (afterBroadcast clientTOne wireBytesData) } ∧
      (NetworkManager.send mgrDual msgData .CLIENT).map (fun m2 => m2.server_transport)
        = .ok mgrDual.server_transport ∧
      NetworkManager.send mgrDual msgData .DUAL
        = .error (.runtimeError "Must specify a netrole when running as NetRole.DUAL") ∧
      NetworkManager.send mgrServer msgData .DUAL = NetworkManager.send mgrServer msgData .SERVER ∧
      NetworkManager.send mgrServer msgData .DUAL
        = .ok { mgrServer with server_transport := some (afterBroadcast srvTransportTwo wireBytesData) }) :=
  ⟨⟨by decide, by decide, by decide, by decide, by decide, by decide⟩,
    C5_role_resolution mgrDual mgrServer msgData msgData clientTOne srvTransportTwo
      wireBytesData wireBytesData
      (by decide) (by decide) (by decide) (by decide) (by decide) (by decide)⟩

/-- Claim C10: a manager whose role is CLIENT or SERVER ignores the
netrole argument of `send` and `get_messages` — any argument (including
the opposite role) resolves without error to the manager's own single
transport, identically to passing its own role. -/
theorem C10_netrole_ignored (m : NetworkManager) (msg : Msg) (nr : NetRole)
    (h : m.net_role = .CLIENT ∨ m.net_role = .SERVER) :
    transport_from_netrole m nr = transport_from_netrole m m.net_role ∧
    (m.net_role = .CLIENT → transport_from_netrole m nr = .ok .client) ∧
    (m.net_role = .SERVER → transport_from_netrole m nr = .ok .server) ∧
    NetworkManager.send m msg nr = NetworkManager.send m msg m.net_role ∧
    NetworkManager.get_messages m nr = NetworkManager.get_messages m m.net_role := by
  have hres : ∀ nr2 : NetRole, transport_from_netrole m nr2
      = (if m.net_role = .CLIENT then .ok .client else .ok .server) := by
    intro nr2
    rcases h with h | h <;>
      (rw [transport_from_netrole]; simp [h])
  refine ⟨?_, ?_, ?_, ?_, ?_⟩
  · rw [hres nr, hres m.net_role]
  · intro hc
    rw [hres nr, if_pos hc]
  · intro hs
    have hc : ¬(m.net_role = .CLIENT) := by
      rw [hs]
      simp
    rw [hres nr, if_neg hc]
  · simp only [NetworkManager.send, hres nr, hres m.net_role]
  · simp only [NetworkManager.get_messages, hres nr, hres m.net_role]

/-- Witness for C10 on a CLIENT-only manager handed the SERVER role. -/
theorem C10_netrole_ignored_witness :
    (mgrClient.net_role = .CLIENT ∨ mgrClient.net_role = .SERVER) ∧
    (transport_from_netrole mgrClient .SERVER = transport_from_netrole mgrClient mgrClient.net_role ∧
      (mgrClient.net_role = .CLIENT → transport_from_netrole mgrClient .SERVER = .ok .client) ∧
      (mgrClient.net_role = .SERVER → transport_from_netrole mgrClient .SERVER = .ok .server) ∧
      NetworkManager.send mgrClient msgData .SERVER
        = NetworkManager.send mgrClient msgData mgrClient.net_role ∧
      NetworkManager.get_messages mgrClient .SERVER
        = NetworkManager.get_messages mgrClient mgrClient.net_role) :=
  ⟨Or.inl (by decide),
    C10_netrole_ignored mgrClient msgData .SERVER (Or.inl (by decide))⟩

/-- Claim C6 evaluated on the code at the failing input: with a
presentation base attached, after state "A"'s load task has completed,
`change("B")` returns with `load_complete` still true (the source resets
it only inside the queued asynchronous task), so an `update(dt)` arriving
before that task first runs dispatches to the new state "B" even though
"B"'s `start` has never been called. Moreover, with no presentation
base the load task never calls `start` at all. -/
theorem C6_code_eval :
    ((GameStateManager.change (GameStateManager.mk0 ["A", "B"] true) "A").bind (fun m1 =>
      (GameStateManager.change m1.run_load_task "B").map (fun m3 =>
        (m3.load_complete, (GameStateManager.update m3).events))))
      = .ok (true, [GEvent.start ⟨"A", 0⟩, GEvent.cleanup ⟨"A", 0⟩, GEvent.update ⟨"B", 1⟩]) ∧
    ((GameStateManager.change (GameStateManager.mk0 ["A"] false) "A").map (fun m =>
        (m.run_load_task.load_complete, m.run_load_task.events)))
      = .ok (true, []) := by
  decide

/-- Claim C8: the very first `change("A")` on a fresh manager sets
`previous_state_name` to "A" itself, so an immediate
`change_to_previous()` re-enters "A" without raising; on any later
transition (a state already current), `previous_state_name` is set to
the name current just before the change. -/
theorem C8_bootstrap_previous (m mp : GameStateManager) (cur : GameStateInst) (nm : String)
    (h1 : "A" ∈ m.states) (h2 : m.current_state = none)
    (h3 : mp.current_state = some cur) (h4 : nm ∈ mp.states) :
    (m.change "A").map (fun m1 =>
        (m1.previous_state_name, m1.current_state_name,
          m1.change_to_previous.map (fun m2 => m2.current_state_name)))
      = .ok ("A", "A", .ok "A") ∧
    (mp.change nm).map (fun m2 => m2.previous_state_name) = .ok mp.current_state_name := by
  constructor
  · have hch : m.change "A" = .ok (changeResult m "A") := by
      rw [GameStateManager.change, if_neg (by simp [h1])]
      simp only [h2]
      rfl
    rw [hch]
    simp [Except.map, changeResult, GameStateManager.change_to_previous,
      GameStateManager.change, h1]
  · rw [GameStateManager.change, if_neg (by simp [h4])]
    simp only [h3]
    rfl

/-- Witness for C8 on a fresh manager and on an active manager. -/
theorem C8_bootstrap_previous_witness :
    ("A" ∈ (GameStateManager.mk0 ["A"] true).states ∧
      (GameStateManager.mk0 ["A"] true).current_state = none ∧
      gsmActiveA.current_state = some ⟨"A", 0⟩ ∧ "B" ∈ gsmActiveA.states) ∧
    (((GameStateManager.mk0 ["A"] true).change "A").map (fun m1 =>
        (m1.previous_state_name, m1.current_state_name,
          m1.change_to_previous.map (fun m2 => m2.current_state_name)))
      = .ok ("A", "A", .ok "A") ∧
    (gsmActiveA.change "B").map (fun m2 => m2.previous_state_name)
      = .ok gsmActiveA.current_state_name) :=
  ⟨⟨by decide, by decide, by decide, by decide⟩,
    C8_bootstrap_previous (GameStateManager.mk0 ["A"] true) gsmActiveA ⟨"A", 0⟩ "B"
      (by decide) (by decide) (by decide) (by decide)⟩

/-- Inserting a fresh connection under the current `next_id` preserves
the connection-table invariant components. -/
theorem inv_insert (conns : List (Nat × Nat)) (issued : List Nat) (nid handle : Nat)
    (h1 : issued = List.range nid) (h2 : (conns.map Prod.fst).Nodup)
    (h3 : ∀ id ∈ conns.map Prod.fst, id ∈ issued) :
    issued ++ [nid] = List.range (nid + 1) ∧
    (((conns ++ [(nid, handle)]).map Prod.fst).Nodup) ∧
    (∀ id ∈ (conns ++ [(nid, handle)]).map Prod.fst, id ∈ issued ++ [nid]) := by
  have hlt : ∀ id ∈ conns.map Prod.fst, id < nid := by
    intro id hid
    have := h3 id hid
    rw [h1] at this
    simpa using this
  refine ⟨?_, ?_, ?_⟩
  · rw [h1, List.range_succ]
  · rw [List.map_append]
    rw [List.nodup_append]
    refine ⟨h2, by simp, ?_⟩
    intro a ha hb
    have hb2 : a = nid := by simpa using hb
    have := hlt a ha
    omega
  · intro id hid
    rw [List.map_append] at hid
    simp at hid ⊢
    rcases hid with hid | hid
    · exact Or.inl (h3 id (by simpa using hid))
    · exact Or.inr hid

/-- `acceptConnection` preserves the invariant. -/
theorem acceptConnection_inv (t : PandaNetworkTransport) (handle : Nat)
    (h : TransportInv t) : TransportInv (acceptConnection t handle) := by
  obtain ⟨h1, h2, h3⟩ := h
  exact inv_insert t.connections t.issued t.next_id handle h1 h2 h3

/-- The accept loop preserves the invariant. -/
theorem acceptLoop_inv (handles : List Nat) : ∀ t : PandaNetworkTransport,
    TransportInv t → TransportInv (acceptLoop t handles).2 := by
  induction handles with
  | nil => intro t h; exact h
  | cons hd rest ih =>
    intro t h
    exact ih (acceptConnection t hd) (acceptConnection_inv t hd h)

/-- The disconnect loop only removes table entries. -/
theorem disconnectLoop_sublist (resets : List Nat) : ∀ (conns : List (Nat × Nat))
    (ids : List Nat) (conns2 : List (Nat × Nat)),
    disconnectLoop conns resets = .ok (ids, conns2) → conns2.Sublist conns := by
  induction resets with
  | nil =>
    intro conns ids conns2 h
    rw [disconnectLoop] at h
    have h2 : ((ids, conns2) : List Nat × List (Nat × Nat)) = ([], conns) := by
      cases h
      rfl
    rw [show conns2 = conns from congrArg Prod.snd h2]
  | cons hd rest ih =>
    intro conns ids conns2 h
    rw [disconnectLoop] at h
    cases hc : connIdOfHandle conns hd with
    | error e => simp only [hc] at h; cases h
    | ok cid =>
      simp only [hc] at h
      cases hrec : disconnectLoop (conns.filter (fun e => !(e.1 = cid))) rest with
      | error e => simp only [hrec] at h; cases h
      | ok p =>
        simp only [hrec] at h
        have hsnd : conns2 = p.2 := by
          cases h
          rfl
        rw [hsnd]
        exact (ih _ _ _ (by rw [hrec])).trans (List.filter_sublist conns)

/-- Every successful transport step preserves the connection-table
invariant. -/
theorem step_inv (t t2 : PandaNetworkTransport) (op : TransportOp)
    (h : TransportInv t) (hstep : t.step op = .ok t2) : TransportInv t2 := by
  obtain ⟨h1, h2, h3⟩ := h
  cases op with
  | startServer openOk =>
    rw [PandaNetworkTransport.step, PandaNetworkTransport.start_server] at hstep
    by_cases hs : t.is_started
    · rw [if_pos hs] at hstep
      cases hstep
    · rw [if_neg hs] at hstep
      by_cases ho : openOk
      · rw [if_neg (by simp [ho])] at hstep
        cases hstep
        exact ⟨h1, h2, h3⟩
      · rw [if_pos (by simp [ho])] at hstep
        cases hstep
  | startClient connOk handle =>
    rw [PandaNetworkTransport.step, PandaNetworkTransport.start_client] at hstep
    by_cases hs : t.is_started
    · rw [if_pos hs] at hstep
      cases hstep
    · rw [if_neg hs] at hstep
      by_cases ho : connOk
      · rw [if_neg (by simp [ho])] at hstep
        cases hstep
        exact inv_insert t.connections t.issued t.next_id handle h1 h2 h3
      · rw [if_pos (by simp [ho])] at hstep
        cases hstep
  | newConnections handles =>
    rw [PandaNetworkTransport.step] at hstep
    cases hstep
    exact acceptLoop_inv handles t ⟨h1, h2, h3⟩
  | disconnects handles =>
    rw [PandaNetworkTransport.step, PandaNetworkTransport.get_disconnects] at hstep
    cases hloop : disconnectLoop t.connections handles with
    | error e => simp only [hloop] at hstep; cases hstep
    | ok p =>
      simp only [hloop] at hstep
      have ht2 : t2 = { t with connections := p.2 } := by
        cases hstep
        rfl
      have hsub : p.2.Sublist t.connections := disconnectLoop_sublist handles t.connections p.1 p.2 (by rw [hloop])
      rw [ht2]
      refine ⟨h1, ?_, ?_⟩
      · exact List.Nodup.sublist (hsub.map Prod.fst) h2
      · intro id hid
        exact h3 id ((hsub.map Prod.fst).mem hid)
  | deliver handle bs =>
    rw [PandaNetworkTransport.step] at hstep
    cases hstep
    exact ⟨h1, h2, h3⟩
  | getMessages =>
    rw [PandaNetworkTransport.step, PandaNetworkTransport.get_messages] at hstep
    cases hcol : collectMessages t.connections t.inbox with
    | error e => simp only [hcol] at hstep; cases hstep
    | ok ms =>
      simp only [hcol] at hstep
      cases hstep
      exact ⟨h1, h2, h3⟩
  | sendMsg bs target =>
    rw [PandaNetworkTransport.step, PandaNetworkTransport.send.eq_def] at hstep
    cases target with
    | none =>
      cases hstep
      exact ⟨h1, h2, h3⟩
    | some cid =>
      cases hfind : t.connections.find? (fun e => e.1 = cid) with
      | none => simp only [hfind] at hstep; cases hstep
      | some e =>
        simp only [hfind] at hstep
        cases hstep
        exact ⟨h1, h2, h3⟩

/-- Runs of the transport preserve the invariant from any invariant
state. -/
theorem exec_inv_aux (ops : List TransportOp) : ∀ t0 t : PandaNetworkTransport,
    TransportInv t0 → List.foldlM PandaNetworkTransport.step t0 ops = .ok t →
    TransportInv t := by
  induction ops with
  | nil =>
    intro t0 t h hf
    have hf2 : (Except.ok t0 : PyResult PandaNetworkTransport) = .ok t := hf
    cases hf2
    exact h
  | cons op rest ih =>
    intro t0 t h hf
    rw [List.foldlM_cons] at hf
    cases hs : t0.step op with
    | error e =>
      rw [hs] at hf
      have hf2 : (Except.error e : PyResult PandaNetworkTransport) = .ok t := hf
      cases hf2
    | ok t1 =>
      rw [hs] at hf
      exact ih t1 t (step_inv t0 t1 op h hs) hf

/-- Claim C7: on every non-crashing run of one transport instance from
construction, connection ids are assigned in strictly increasing order
starting from 0 (`issued` is exactly `0, 1, …, next_id − 1` in
assignment order, so no id is ever assigned twice — a disconnected id is
never reused), each live connection id occurs at most once in the table,
every live id was assigned, and a fresh client's single outbound
connection is stored under id 0. -/
theorem C7_connection_ids (ops : List TransportOp) (t : PandaNetworkTransport)
    (handle : Nat) (h : PandaNetworkTransport.exec ops = .ok t) :
    t.issued = List.range t.next_id ∧
    (t.connections.map Prod.fst).Nodup ∧
    (∀ id ∈ t.connections.map Prod.fst, id ∈ t.issued) ∧
    (PandaNetworkTransport.init.start_client true handle).map
      (fun t3 => t3.connections) = .ok [(0, handle)] := by
  have hinv := exec_inv_aux ops PandaNetworkTransport.init t (by decide) h
  exact ⟨hinv.1, hinv.2.1, hinv.2.2, rfl⟩

/-- Witness for C7 on a run with two accepted connections, one
disconnect, and a later connection that gets the next id (2), never
re-assigning the freed id 0. -/
theorem C7_connection_ids_witness :
    (PandaNetworkTransport.exec [TransportOp.startServer true,
        TransportOp.newConnections [7, 9], TransportOp.disconnects [7],
        TransportOp.newConnections [12]]
      = .ok ⟨true, true, [(1, 9), (2, 12)], 3, [], [], [0, 1, 2]⟩) ∧
    (PandaNetworkTransport.mk true true [(1, 9), (2, 12)] 3 [] [] [0, 1, 2]).issued
      = List.range (PandaNetworkTransport.mk true true [(1, 9), (2, 12)] 3 [] [] [0, 1, 2]).next_id ∧
    (((PandaNetworkTransport.mk true true [(1, 9), (2, 12)] 3 [] [] [0, 1, 2]).connections.map Prod.fst).Nodup) ∧
    (∀ id ∈ (PandaNetworkTransport.mk true true [(1, 9), (2, 12)] 3 [] [] [0, 1, 2]).connections.map Prod.fst,
      id ∈ (PandaNetworkTransport.mk true true [(1, 9), (2, 12)] 3 [] [] [0, 1, 2]).issued) ∧
    (PandaNetworkTransport.init.start_client true 42).map
      (fun t3 => t3.connections) = .ok [(0, 42)] :=
  have hx := C7_connection_ids [TransportOp.startServer true,
      TransportOp.newConnections [7, 9], TransportOp.disconnects [7],
      TransportOp.newConnections [12]]
    (PandaNetworkTransport.mk true true [(1, 9), (2, 12)] 3 [] [] [0, 1, 2]) 42 (by decide)
  ⟨by decide, hx.1, hx.2.1, hx.2.2.1, hx.2.2.2⟩
